import Mathlib

/-!
Verification of the Media-Scout recommendation service (src/main.rs).

The development shallowly embeds the data model and the operations of
`ContentService`: the catalog cache with its staleness check
(`ContentCache::needs_update`), the filtering and per-user rotation logic
(`ContentService::filter_recommendations`), the orchestration entry point
(`ContentService::get_recommendations`), the upstream aggregation
(`ContentService::fetch_movies` / `fetch_tv_shows` / `scrape_content`),
the durable-store retry loop (`ContentService::save_to_blob`) and the
snapshot codec (`save_to_blob` serialization prefix and
`ContentService::process_blob_data`).

Modelling conventions:
- f32 values (ratings) are modelled as rationals; NaN behaviour is out of
  scope.
- `chrono` timestamps are modelled as integer second counts;
  `Duration::num_hours` truncates toward zero, modelled by `Int.tdiv`.
- `HashMap` is modelled as an association list with lookup by key and
  whole-binding replacement; `HashSet` as a list with membership-guarded
  insertion.  Only membership and the stored bindings matter to the code.
- Network and randomness effects are passed in as explicit parameters: a
  shuffle is an arbitrary function that the theorems constrain to be a
  permutation (the contract of `rand::seq::SliceRandom::shuffle`), the
  outcome of each upstream HTTP call and of each blob-upload attempt is an
  explicit argument.
- Fallible Rust code returning `anyhow::Result` is modelled with `Except`.
-/

/-- Error taxonomy of the service: upstream metadata failures and
durable-store failures (`anyhow` errors in the source). -/
inductive SvcError where
  | fetchErr
  | persistErr
deriving DecidableEq, Repr

/-- One catalog entry (struct `Content` in src/main.rs, lines 20-28). -/
structure Content where
  title : String
  year : Option String
  rating : Option ℚ
  genre : List String
  description : String
  where_to_watch : List String
deriving DecidableEq, Repr

/-- Request-scoped user preferences (struct `UserPreferences`, lines 30-34). -/
structure UserPreferences where
  favorite_genres : List String
  minimum_rating : ℚ
deriving DecidableEq, Repr

/-- The in-process cache (struct `ContentCache`, lines 55-59): the catalog
mapping, the per-user rotation sets and the last refresh timestamp
(seconds). -/
structure ContentCache where
  data : List (String × List Content)
  used_recommendations : List (String × List String)
  last_updated : Int
deriving Repr

/-- The persisted snapshot shape (struct `CacheData`, lines 61-66). -/
structure CacheData where
  content : List Content
  used_recommendations : List (String × List String)
  last_updated : Int
deriving DecidableEq, Repr

/-- `HashMap` lookup, modelled on an association list. -/
def lookupMap {α : Type} (m : List (String × α)) (k : String) : Option α :=
  (m.find? (fun p => p.1 == k)).map (fun p => p.2)

/-- `HashMap::insert`: replace the binding of `k` by `v`. -/
def insertMap {α : Type} (m : List (String × α)) (k : String) (v : α) :
    List (String × α) :=
  (k, v) :: m.filter (fun p => !(p.1 == k))

/-- The rotation set recorded for a user key;
`used_recommendations.entry(user_key).or_insert_with(HashSet::new)` reads
the stored set, defaulting to the empty set. -/
def usedSetOf (cache : ContentCache) (user_key : String) : List String :=
  (lookupMap cache.used_recommendations user_key).getD []

/-- `HashSet::insert`: add the element unless already present. -/
def hsInsert (s : List String) (x : String) : List String :=
  if s.contains x then s else x :: s

/-- Insert the title of every recommendation into a rotation set
(the final loop of `filter_recommendations`, lines 872-874). -/
def insertAllTitles (s : List String) (recs : List Content) : List String :=
  recs.foldl (fun acc c => hsInsert acc c.title) s

/-- The filter predicate of `filter_recommendations` (lines 819-822):
`c.rating.unwrap_or(0.0) >= prefs.minimum_rating` and some genre of `c` is
contained in the favorite genres. -/
def matchesPrefs (prefs : UserPreferences) (c : Content) : Bool :=
  decide (prefs.minimum_rating ≤ c.rating.getD 0) &&
    c.genre.any (fun g => prefs.favorite_genres.contains g)

/-- The eligible pool for a user: catalog entries passing the preference
filter whose title is not in the rotation set (lines 818-823 and 835). -/
def eligList (content : List Content) (prefs : UserPreferences)
    (used : List String) : List Content :=
  (content.filter (matchesPrefs prefs)).filter
    (fun c => !(used.contains c.title))

/-- Size of the eligible pool after rotation exclusion. -/
def eligCount (content : List Content) (prefs : UserPreferences)
    (used : List String) : Nat :=
  (eligList content prefs used).length

/-- `chrono::Duration::num_hours`: whole hours, truncated toward zero. -/
def num_hours (secs : Int) : Int :=
  Int.tdiv secs 3600

/-- `ContentCache::needs_update` (lines 78-81):
`now.signed_duration_since(self.last_updated).num_hours() > 12`. -/
def needs_update (cache : ContentCache) (now : Int) : Bool :=
  decide (12 < num_hours (now - cache.last_updated))

/-- `ContentService::filter_recommendations` (lines 814-878).
`shuffle` stands for the random shuffle of the eligible vector; the state
effect on the cache (the updated rotation binding for `user_key`) is
returned alongside the selected recommendations. -/
def filter_recommendations (shuffle : List Content → List Content)
    (content : List Content) (prefs : UserPreferences) (user_key : String)
    (cache : ContentCache) : List Content × ContentCache :=
  let available0 := content.filter (matchesPrefs prefs)
  let used := usedSetOf cache user_key
  let available1 := available0.filter (fun c => !(used.contains c.title))
  let reset := available1.length < 10
  let used2 := if reset then [] else used
  let available2 :=
    if reset then
      match lookupMap cache.data "latest" with
      | some latest => latest.filter (matchesPrefs prefs)
      | none => available1
    else available1
  let recommendations := (shuffle available2).take 20
  let used3 := insertAllTitles used2 recommendations
  (recommendations,
    { cache with
        used_recommendations :=
          insertMap cache.used_recommendations user_key used3 })

/-- One raw upstream listing item, as read from the provider JSON in
`fetch_movies` / `fetch_tv_shows` (lines 200-223 and 246-269).  The
`title` and `release_date` fields stand for `title`/`release_date` on
movies and `name`/`first_air_date` on TV shows.  The outcomes of the two
dependent detail calls (`get_movie_genres`/`get_tv_genres` and
`get_watch_providers`) are carried on the item, since in the source they
are issued per item and consumed with `unwrap_or_default`. -/
structure RawItem where
  id : Option Int
  title : Option String
  release_date : Option String
  vote_average : Option ℚ
  overview : Option String
  genresResult : Except Unit (List String)
  providersResult : Except Unit (List String)

/-- Outcome of one upstream listing HTTP call: a transport or JSON
deserialization error (the `?` operators in `fetch_movies`), a response
whose status is not a success (the `is_success` check fails, yielding no
items), or a successful response carrying raw items. -/
inductive FetchOutcome where
  | transportErr
  | badStatus
  | okResults (items : List RawItem)

/-- `String.split('-').next()`: the prefix of the date before the first
dash (always present, possibly empty). -/
def yearOf (d : String) : String :=
  d.takeWhile (fun ch => ch != '-')

/-- `Result::unwrap_or_default` on a detail-call outcome. -/
def exGetD (e : Except Unit (List String)) : List String :=
  match e with
  | .ok l => l
  | .error _ => []

/-- Build one `Content` value from a raw item, exactly as the struct
literal in `fetch_movies` (lines 213-223): the description is the
upstream overview verbatim, defaulting to the empty string. -/
def contentOfRaw (it : RawItem) : Content :=
  { title := it.title.getD ""
    year := it.release_date.map yearOf
    rating := it.vote_average
    genre := exGetD it.genresResult
    description := it.overview.getD ""
    where_to_watch := exGetD it.providersResult }

/-- The per-item loop of `fetch_movies`: skip ids already in the tracker
(`ContentTracker::is_new`), otherwise record the id and emit the content.
Returns the emitted contents and the grown tracker. -/
def processRawItems (tracker : List Int) :
    List RawItem → List Content × List Int
  | [] => ([], tracker)
  | it :: rest =>
    let movie_id := it.id.getD 0
    if tracker.contains movie_id then
      processRawItems tracker rest
    else
      let r := processRawItems (movie_id :: tracker) rest
      (contentOfRaw it :: r.1, r.2)

/-- `ContentService::fetch_movies` (lines 186-230): a transport error
propagates as an error, a non-success status yields no items, a success
processes the result array against the shared tracker. -/
def fetch_movies (tracker : List Int) (outcome : FetchOutcome) :
    Except SvcError (List Content × List Int) :=
  match outcome with
  | .transportErr => .error .fetchErr
  | .badStatus => .ok ([], tracker)
  | .okResults items => .ok (processRawItems tracker items)

/-- `ContentService::fetch_tv_shows` (lines 232-276): identical control
flow to `fetch_movies`, reading `name`/`first_air_date` instead of
`title`/`release_date` (both modelled by the same `RawItem` fields). -/
def fetch_tv_shows (tracker : List Int) (outcome : FetchOutcome) :
    Except SvcError (List Content × List Int) :=
  match outcome with
  | .transportErr => .error .fetchErr
  | .badStatus => .ok ([], tracker)
  | .okResults items => .ok (processRawItems tracker items)

/-- Does a listing-call outcome abort the aggregation? -/
def isTransportErr (o : FetchOutcome) : Bool :=
  match o with
  | .transportErr => true
  | _ => false

/-- The sequential loop of `scrape_content` (lines 304-374): each listing
call is awaited with `?`, so an error aborts the loop; on success the
items are appended and the tracker carried to the next call. -/
def scrapeGo (tracker : List Int) (acc : List Content) :
    List FetchOutcome → Except SvcError (List Content)
  | [] => .ok acc
  | o :: rest =>
    match fetch_movies tracker o with
    | .error e => .error e
    | .ok r => scrapeGo r.2 (acc ++ r.1) rest

/-- `ContentService::scrape_content` (lines 297-383): run the listing
calls in order (the concrete service issues 5 pages times 10 endpoints),
then shuffle the accumulated content. -/
def scrape_content (shuffle : List Content → List Content)
    (outcomes : List FetchOutcome) : Except SvcError (List Content) :=
  (scrapeGo [] [] outcomes).map shuffle

/-- The retry loop of `save_to_blob` (lines 721-747), modelled with the
remaining-attempt count as fuel (`fuel = max_retries - retry_count`).
`outcome n` tells whether upload attempt with `retry_count = n` succeeds.
Returns (success, attempts made, delays slept between attempts in
seconds). -/
def saveAttempts (outcome : Nat → Bool) (max_retries : Nat) :
    Nat → Nat → Bool × Nat × List Nat
  | _, 0 => (false, 0, [])
  | retry_count, fuel + 1 =>
    if outcome retry_count then (true, 1, [])
    else
      let rc := retry_count + 1
      let rest := saveAttempts outcome max_retries rc fuel
      (rest.1, rest.2.1 + 1,
        (if rc < max_retries then [2 ^ rc] else []) ++ rest.2.2)

/-- `ContentService::save_to_blob` (lines 698-755), upload phase: up to
`max_retries = 3` attempts; a failure after the retries are exhausted is
reported as an error (`last_error` is necessarily set).  The serialization
and compression prefix of the function is modelled separately by
`save_to_blob_encode`.  The in-memory cache is not an input or output:
the source function never touches `self.cache`. -/
def save_to_blob (outcome : Nat → Bool) :
    Except SvcError Unit × Nat × List Nat :=
  let r := saveAttempts outcome 3 0 3
  ((if r.1 then Except.ok () else Except.error SvcError.persistErr),
    r.2.1, r.2.2)

/-- `Except.isOk`, spelled locally. -/
def isOkE {ε α : Type} (e : Except ε α) : Bool :=
  match e with
  | .ok _ => true
  | .error _ => false

/-- `ContentService::get_recommendations` (lines 766-812).  `shS` and
`shF` are the shuffles drawn inside `scrape_content` and
`filter_recommendations`; `outcomes` are the upstream listing-call
outcomes and `so` the blob-upload attempt outcomes, consumed only on the
fresh-fetch path.  `user_key` abstracts `generate_user_key(prefs)` (an
opaque hash of the preferences).  Returns the response and the final
cache state; note that on the fresh-fetch path the cache is replaced
before `save_to_blob` runs, so the replacement survives a save error. -/
def get_recommendations (shS shF : List Content → List Content)
    (outcomes : List FetchOutcome) (so : Nat → Bool) (now : Int)
    (user_key : String) (cache : ContentCache) (prefs : UserPreferences) :
    Except SvcError (List Content) × ContentCache :=
  let content :=
    if needs_update cache now then none else lookupMap cache.data "latest"
  match content with
  | some c =>
    let fr := filter_recommendations shF c prefs user_key cache
    (.ok fr.1, fr.2)
  | none =>
    match scrape_content shS outcomes with
    | .error e => (.error e, cache)
    | .ok c =>
      let cache1 : ContentCache :=
        { data := insertMap cache.data "latest" c
          used_recommendations := []
          last_updated := now }
      match (save_to_blob so).1 with
      | .error e => (.error e, cache1)
      | .ok _ =>
        let fr := filter_recommendations shF c prefs user_key cache1
        (.ok fr.1, fr.2)

/-- JSON values, the target of `serde_json` serialization. -/
inductive Json where
  | null
  | bool (b : Bool)
  | num (q : ℚ)
  | str (s : String)
  | arr (xs : List Json)
  | obj (fields : List (String × Json))

/-- serde encoding of `Option<String>`: `None` is `null`. -/
def encOptStr (o : Option String) : Json :=
  match o with
  | none => .null
  | some s => .str s

/-- serde encoding of `Option<f32>`: `None` is `null`. -/
def encOptRat (o : Option ℚ) : Json :=
  match o with
  | none => .null
  | some q => .num q

/-- serde encoding of `Vec<String>`. -/
def encStrList (l : List String) : Json :=
  .arr (l.map Json.str)

/-- Derived `Serialize` for `Content`: a JSON object with one field per
struct field, in declaration order. -/
def Content.toJson (c : Content) : Json :=
  .obj [("title", .str c.title), ("year", encOptStr c.year),
        ("rating", encOptRat c.rating), ("genre", encStrList c.genre),
        ("description", .str c.description),
        ("where_to_watch", encStrList c.where_to_watch)]

/-- Derived `Serialize` for `CacheData` (lines 61-66): the catalog as an
array, the rotation map as an object mapping each user key to the array
of its titles, and the timestamp as a number (the model of the chrono
serialization). -/
def CacheData.toJson (cd : CacheData) : Json :=
  .obj [("content", .arr (cd.content.map Content.toJson)),
        ("used_recommendations",
          .obj (cd.used_recommendations.map
            (fun p => (p.1, encStrList p.2)))),
        ("last_updated", .num (cd.last_updated : ℚ))]

/-- Decode a JSON string. -/
def decStr (j : Json) : Option String :=
  match j with
  | .str s => some s
  | _ => none

/-- Decode an `Option<String>` field. -/
def decOptStr (j : Json) : Option (Option String) :=
  match j with
  | .null => some none
  | .str s => some (some s)
  | _ => none

/-- Decode an `Option<f32>` field. -/
def decOptRat (j : Json) : Option (Option ℚ) :=
  match j with
  | .null => some none
  | .num q => some (some q)
  | _ => none

/-- Decode a list of JSON strings. -/
def decStrs : List Json → Option (List String)
  | [] => some []
  | j :: js =>
    match decStr j, decStrs js with
    | some s, some rest => some (s :: rest)
    | _, _ => none

/-- Decode a `Vec<String>` field. -/
def decStrList (j : Json) : Option (List String) :=
  match j with
  | .arr xs => decStrs xs
  | _ => none

/-- Derived `Deserialize` for `Content`, on the shape the encoder emits
(the source decodes with `serde_json::from_str`; the model covers the
accepting path on serialized values). -/
def Content.fromJson (j : Json) : Option Content :=
  match j with
  | .obj [("title", jt), ("year", jy), ("rating", jr), ("genre", jg),
          ("description", jd), ("where_to_watch", jw)] =>
    match decStr jt, decOptStr jy, decOptRat jr, decStrList jg,
          decStr jd, decStrList jw with
    | some t, some y, some r, some g, some d, some w =>
      some { title := t, year := y, rating := r, genre := g,
             description := d, where_to_watch := w }
    | _, _, _, _, _, _ => none
  | _ => none

/-- Decode a serialized catalog. -/
def decContents : List Json → Option (List Content)
  | [] => some []
  | j :: js =>
    match Content.fromJson j, decContents js with
    | some c, some rest => some (c :: rest)
    | _, _ => none

/-- Decode a serialized rotation map. -/
def decRotEntries : List (String × Json) → Option (List (String × List String))
  | [] => some []
  | (k, v) :: rest =>
    match decStrList v, decRotEntries rest with
    | some s, some tl => some ((k, s) :: tl)
    | _, _ => none

/-- Derived `Deserialize` for `CacheData`. -/
def CacheData.fromJson (j : Json) : Option CacheData :=
  match j with
  | .obj [("content", .arr cs), ("used_recommendations", .obj us),
          ("last_updated", .num q)] =>
    match decContents cs, decRotEntries us with
    | some content, some ur =>
      if q.den = 1 then some ⟨content, ur, q.num⟩ else none
    | _, _ => none
  | _ => none

/-- The serialization prefix of `ContentService::save_to_blob`
(lines 698-704): `serde_json::to_string` followed by gzip compression.
`render` is the JSON text rendering of `serde_json` and `comp` the
`flate2` compressor, both external collaborators taken as parameters. -/
def save_to_blob_encode {γ β : Type} (render : Json → γ) (comp : γ → β)
    (cd : CacheData) : β :=
  comp (render (CacheData.toJson cd))

/-- `ContentService::process_blob_data` (lines 757-764): gzip
decompression, then `serde_json::from_str`.  `decomp` and `parse` are the
inverses provided by the external libraries; a failure of either is a
decode failure (`none`). -/
def process_blob_data {γ β : Type} (decomp : β → Option γ)
    (parse : γ → Option Json) (data : β) : Option CacheData :=
  (decomp data).bind (fun g => (parse g).bind CacheData.fromJson)

/-- Repeated `get_recommendations` calls with fixed preferences against a
fixed cached catalog: each call runs `filter_recommendations` on the
same content (the cached-path behaviour of `get_recommendations`) and
threads the rotation state.  One shuffle is drawn per call. -/
def runCalls (content : List Content) (prefs : UserPreferences)
    (user_key : String) :
    List (List Content → List Content) → ContentCache →
      List (List Content) × ContentCache
  | [], cache => ([], cache)
  | sh :: rest, cache =>
    let fr := filter_recommendations sh content prefs user_key cache
    let r := runCalls content prefs user_key rest fr.2
    (fr.1 :: r.1, r.2)

/-- Check that no call of the run hits the exhaustion reset: before each
call, the eligible pool after excluding the rotation set has at least 10
items. -/
def noResetRunB (content : List Content) (prefs : UserPreferences)
    (user_key : String) :
    List (List Content → List Content) → ContentCache → Bool
  | [], _ => true
  | sh :: rest, cache =>
    decide (10 ≤ eligCount content prefs (usedSetOf cache user_key)) &&
      noResetRunB content prefs user_key rest
        (filter_recommendations sh content prefs user_key cache).2

/-- Two result lists share no title. -/
def titleDisjoint (l1 l2 : List Content) : Prop :=
  ∀ c1 ∈ l1, ∀ c2 ∈ l2, c1.title ≠ c2.title

/-- Sample catalog entry: title `t<n>`, rating 5, genre Action. -/
def mkC (n : Nat) : Content :=
  { title := "t" ++ toString n, year := none, rating := some 5,
    genre := ["Action"], description := "", where_to_watch := [] }

/-- Sample preferences with a non-empty genre list. -/
def prefs0 : UserPreferences :=
  { favorite_genres := ["Action"], minimum_rating := 1 }

/-- Sample preferences with an empty genre list. -/
def prefsE : UserPreferences :=
  { favorite_genres := [], minimum_rating := 0 }

/-- Sample catalog with 5 distinct eligible items. -/
def catalog5 : List Content := (List.range 5).map mkC

/-- Sample catalog with 31 distinct eligible items. -/
def catalog31 : List Content := (List.range 31).map mkC

/-- A cache holding `content` under the `latest` key, refreshed at time
0, with no rotation state. -/
def cacheWith (content : List Content) : ContentCache :=
  { data := [("latest", content)], used_recommendations := [],
    last_updated := 0 }

/-- A 201-character description. -/
def longDesc : String := String.mk (List.replicate 201 'x')

/-- A raw upstream item whose overview is 201 characters long. -/
def rawItem1 : RawItem :=
  { id := some 1, title := some "m", release_date := none,
    vote_average := none, overview := some longDesc,
    genresResult := .ok [], providersResult := .ok [] }

/-- A small concrete snapshot. -/
def cd0 : CacheData :=
  { content := [mkC 0], used_recommendations := [("u", ["t0"])],
    last_updated := 0 }

theorem lookupMap_insertMap_self {α : Type} (m : List (String × α))
    (k : String) (v : α) : lookupMap (insertMap m k v) k = some v := by
  simp [lookupMap, insertMap]

theorem mem_hsInsert_of_mem {s : List String} {x : String} (y : String)
    (h : x ∈ s) : x ∈ hsInsert s y := by
  unfold hsInsert
  split
  · exact h
  · exact List.mem_cons_of_mem _ h

theorem self_mem_hsInsert (s : List String) (y : String) :
    y ∈ hsInsert s y := by
  unfold hsInsert
  split
  · next hc => exact List.elem_iff.mp hc
  · exact List.mem_cons_self _ _

theorem mem_insertAllTitles_of_mem {s : List String} {x : String}
    (recs : List Content) (h : x ∈ s) : x ∈ insertAllTitles s recs := by
  induction recs generalizing s with
  | nil => exact h
  | cons c rest ih =>
    exact ih (mem_hsInsert_of_mem c.title h)

theorem title_mem_insertAllTitles {recs : List Content} {c : Content}
    (s : List String) (h : c ∈ recs) :
    c.title ∈ insertAllTitles s recs := by
  induction recs generalizing s with
  | nil => cases h
  | cons a rest ih =>
    rcases List.mem_cons.mp h with h1 | h2
    · subst h1
      exact mem_insertAllTitles_of_mem rest (self_mem_hsInsert s c.title)
    · exact ih (hsInsert s a.title) h2

theorem fr_no_reset_eq (sh : List Content → List Content)
    (content : List Content) (prefs : UserPreferences) (key : String)
    (cache : ContentCache)
    (h : 10 ≤ eligCount content prefs (usedSetOf cache key)) :
    filter_recommendations sh content prefs key cache
      = ((sh (eligList content prefs (usedSetOf cache key))).take 20,
         { cache with
             used_recommendations :=
               insertMap cache.used_recommendations key
                 (insertAllTitles (usedSetOf cache key)
                   ((sh (eligList content prefs
                     (usedSetOf cache key))).take 20)) }) := by
  have h' : ¬ ((List.filter (fun c => !(usedSetOf cache key).contains c.title)
      (List.filter (matchesPrefs prefs) content)).length < 10) := by
    simp only [eligCount, eligList] at h
    omega
  simp only [filter_recommendations, eligList, if_neg h']

theorem fr_reset_eq (sh : List Content → List Content)
    (content : List Content) (prefs : UserPreferences) (key : String)
    (cache : ContentCache) (latest : List Content)
    (h : eligCount content prefs (usedSetOf cache key) < 10)
    (hl : lookupMap cache.data "latest" = some latest) :
    filter_recommendations sh content prefs key cache
      = ((sh (latest.filter (matchesPrefs prefs))).take 20,
         { cache with
             used_recommendations :=
               insertMap cache.used_recommendations key
                 (insertAllTitles []
                   ((sh (latest.filter (matchesPrefs prefs))).take 20)) }) := by
  have h' : (List.filter (fun c => !(usedSetOf cache key).contains c.title)
      (List.filter (matchesPrefs prefs) content)).length < 10 := by
    simp only [eligCount, eligList] at h
    omega
  simp only [filter_recommendations, eligList, if_pos h', hl]

theorem fr_reset_none_eq (sh : List Content → List Content)
    (content : List Content) (prefs : UserPreferences) (key : String)
    (cache : ContentCache)
    (h : eligCount content prefs (usedSetOf cache key) < 10)
    (hl : lookupMap cache.data "latest" = none) :
    filter_recommendations sh content prefs key cache
      = ((sh (eligList content prefs (usedSetOf cache key))).take 20,
         { cache with
             used_recommendations :=
               insertMap cache.used_recommendations key
                 (insertAllTitles []
                   ((sh (eligList content prefs
                     (usedSetOf cache key))).take 20)) }) := by
  have h' : (List.filter (fun c => !(usedSetOf cache key).contains c.title)
      (List.filter (matchesPrefs prefs) content)).length < 10 := by
    simp only [eligCount, eligList] at h
    omega
  simp only [filter_recommendations, eligList, if_pos h', hl]

theorem matchesPrefs_of_mem_fr (sh : List Content → List Content)
    (hperm : ∀ l, (sh l).Perm l) (content : List Content)
    (prefs : UserPreferences) (key : String) (cache : ContentCache)
    (c : Content)
    (hc : c ∈ (filter_recommendations sh content prefs key cache).1) :
    matchesPrefs prefs c = true := by
  by_cases hr : eligCount content prefs (usedSetOf cache key) < 10
  · cases hl : lookupMap cache.data "latest" with
    | some latest =>
      rw [fr_reset_eq sh content prefs key cache latest hr hl] at hc
      have h1 : c ∈ sh (latest.filter (matchesPrefs prefs)) :=
        List.take_subset _ _ hc
      have h2 : c ∈ latest.filter (matchesPrefs prefs) :=
        ((hperm _).mem_iff).mp h1
      exact (List.mem_filter.mp h2).2
    | none =>
      rw [fr_reset_none_eq sh content prefs key cache hr hl] at hc
      have h1 := List.take_subset _ _ hc
      have h2 := ((hperm _).mem_iff).mp h1
      simp only [eligList] at h2
      have h3 := (List.mem_filter.mp h2).1
      exact (List.mem_filter.mp h3).2
  · rw [fr_no_reset_eq sh content prefs key cache (by omega)] at hc
    have h1 := List.take_subset _ _ hc
    have h2 := ((hperm _).mem_iff).mp h1
    simp only [eligList] at h2
    have h3 := (List.mem_filter.mp h2).1
    exact (List.mem_filter.mp h3).2

theorem matchesPrefs_empty_genres (prefs : UserPreferences) (c : Content)
    (hp : prefs.favorite_genres = []) : matchesPrefs prefs c = false := by
  simp [matchesPrefs, hp]

theorem fr_empty_genres (sh : List Content → List Content)
    (hperm : ∀ l, (sh l).Perm l) (content : List Content)
    (prefs : UserPreferences) (key : String) (cache : ContentCache)
    (hp : prefs.favorite_genres = []) :
    (filter_recommendations sh content prefs key cache).1 = [] := by
  have hm : ∀ l : List Content, l.filter (matchesPrefs prefs) = [] := by
    intro l
    exact List.filter_eq_nil_iff.mpr
      (fun a _ => by simp [matchesPrefs_empty_genres prefs a hp])
  have hnil : ∀ l : List Content, sh l = [] → True := fun _ _ => trivial
  have h0 : eligCount content prefs (usedSetOf cache key) < 10 := by
    simp only [eligCount, eligList, hm content]
    simp
  cases hl : lookupMap cache.data "latest" with
  | some latest =>
    rw [fr_reset_eq sh content prefs key cache latest h0 hl]
    rw [hm latest]
    rw [(hperm []).eq_nil]
    rfl
  | none =>
    rw [fr_reset_none_eq sh content prefs key cache h0 hl]
    simp only [eligList, hm content]
    rw [List.filter_nil, (hperm []).eq_nil]
    rfl

theorem get_ok_from_fr (shS shF : List Content → List Content)
    (outcomes : List FetchOutcome) (so : Nat → Bool) (now : Int)
    (key : String) (cache : ContentCache) (prefs : UserPreferences)
    (l : List Content)
    (hok : (get_recommendations shS shF outcomes so now key cache prefs).1
      = .ok l) :
    ∃ content cache0,
      l = (filter_recommendations shF content prefs key cache0).1 := by
  by_cases hnu : needs_update cache now = true
  · cases hscr : scrape_content shS outcomes with
    | error e => simp [get_recommendations, hnu, hscr] at hok
    | ok c =>
      cases hsv : (save_to_blob so).1 with
      | error e => simp [get_recommendations, hnu, hscr, hsv] at hok
      | ok u =>
        simp [get_recommendations, hnu, hscr, hsv] at hok
        exact ⟨c, ⟨insertMap cache.data "latest" c, [], now⟩, hok.symm⟩
  · cases hlk : lookupMap cache.data "latest" with
    | some c =>
      refine ⟨c, cache, ?_⟩
      simp [get_recommendations, hnu, hlk] at hok
      exact hok.symm
    | none =>
      cases hscr : scrape_content shS outcomes with
      | error e => simp [get_recommendations, hnu, hlk, hscr] at hok
      | ok c =>
        cases hsv : (save_to_blob so).1 with
        | error e => simp [get_recommendations, hnu, hlk, hscr, hsv] at hok
        | ok u =>
          simp [get_recommendations, hnu, hlk, hscr, hsv] at hok
          exact ⟨c, ⟨insertMap cache.data "latest" c, [], now⟩, hok.symm⟩

/-- C2: for preferences with non-empty favorite genres, every item in a
list returned by the recommendation operation (`get_recommendations`) has
rating (absent rating treated as 0) at least `minimum_rating` and shares
at least one genre with the favorite genres. -/
theorem c2_recommendations_respect_preferences
    (shS shF : List Content → List Content) (outcomes : List FetchOutcome)
    (so : Nat → Bool) (now : Int) (key : String) (cache : ContentCache)
    (prefs : UserPreferences) (l : List Content)
    (hperm : ∀ lc, (shF lc).Perm lc)
    (hne : prefs.favorite_genres ≠ [])
    (hok : (get_recommendations shS shF outcomes so now key cache prefs).1
      = .ok l) :
    ∀ c ∈ l, prefs.minimum_rating ≤ c.rating.getD 0 ∧
      ∃ g ∈ c.genre, g ∈ prefs.favorite_genres := by
  obtain ⟨content, cache0, hl⟩ :=
    get_ok_from_fr shS shF outcomes so now key cache prefs l hok
  subst hl
  intro c hc
  have hm := matchesPrefs_of_mem_fr shF hperm content prefs key cache0 c hc
  simp [matchesPrefs] at hm
  exact hm

/-- Witness for C2 at concrete inputs: a fresh single-item cache. -/
theorem c2_witness :
    prefs0.favorite_genres ≠ [] ∧
    ∀ c ∈ [mkC 0], prefs0.minimum_rating ≤ c.rating.getD 0 ∧
      ∃ g ∈ c.genre, g ∈ prefs0.favorite_genres :=
  ⟨by decide,
   c2_recommendations_respect_preferences (fun l => l) (fun l => l) []
     (fun _ => true) 0 "u" (cacheWith [mkC 0]) prefs0 [mkC 0]
     (fun lc => List.Perm.refl lc) (by decide) (by rfl)⟩

/-- C3: with empty favorite genres the recommendation operation returns
the empty list on every catalog and rotation state; the exhaustion-reset
path refilters with the same empty-genre predicate and also yields
nothing. -/
theorem c3_empty_genres_empty_result
    (shS shF : List Content → List Content) (outcomes : List FetchOutcome)
    (so : Nat → Bool) (now : Int) (key : String) (cache : ContentCache)
    (prefs : UserPreferences) (l : List Content)
    (hperm : ∀ lc, (shF lc).Perm lc)
    (hp : prefs.favorite_genres = [])
    (hok : (get_recommendations shS shF outcomes so now key cache prefs).1
      = .ok l) :
    l = [] := by
  obtain ⟨content, cache0, hl⟩ :=
    get_ok_from_fr shS shF outcomes so now key cache prefs l hok
  rw [hl]
  exact fr_empty_genres shF hperm content prefs key cache0 hp

/-- Witness for C3 at concrete inputs. -/
theorem c3_witness :
    prefsE.favorite_genres = [] ∧ ([] : List Content) = [] :=
  ⟨rfl, c3_empty_genres_empty_result (fun l => l) (fun l => l) []
    (fun _ => true) 0 "u" (cacheWith [mkC 0]) prefsE []
    (fun lc => List.Perm.refl lc) rfl (by rfl)⟩

/-- C5: the recommendation result of `filter_recommendations` is capped at
20 items; when the post-exclusion eligible count is below the floor of 10
the user rotation set is cleared and the result is drawn from the full
filtered candidates without exclusion; with exactly 5 filtered-eligible
items the call returns min(20,5) = 5 items. -/
theorem c5_exhaustion_reset (sh : List Content → List Content)
    (content : List Content) (prefs : UserPreferences) (key : String)
    (cache : ContentCache)
    (hperm : ∀ l, (sh l).Perm l)
    (hlatest : lookupMap cache.data "latest" = some content) :
    (filter_recommendations sh content prefs key cache).1.length ≤ 20 ∧
    (eligCount content prefs (usedSetOf cache key) < 10 →
      (filter_recommendations sh content prefs key cache).1
        = (sh (content.filter (matchesPrefs prefs))).take 20 ∧
      usedSetOf (filter_recommendations sh content prefs key cache).2 key
        = insertAllTitles []
            (filter_recommendations sh content prefs key cache).1) ∧
    ((content.filter (matchesPrefs prefs)).length = 5 →
      (filter_recommendations sh content prefs key cache).1.length = 5) := by
  refine ⟨?_, ?_, ?_⟩
  · by_cases hr : eligCount content prefs (usedSetOf cache key) < 10
    · rw [fr_reset_eq sh content prefs key cache content hr hlatest]
      simp [List.length_take]
    · rw [fr_no_reset_eq sh content prefs key cache (by omega)]
      simp [List.length_take]
  · intro hr
    rw [fr_reset_eq sh content prefs key cache content hr hlatest]
    exact ⟨rfl, by simp [usedSetOf, lookupMap_insertMap_self]⟩
  · intro h5
    have hle := List.length_filter_le
      (fun c => !((usedSetOf cache key).contains c.title))
      (content.filter (matchesPrefs prefs))
    have hr : eligCount content prefs (usedSetOf cache key) < 10 := by
      simp only [eligCount, eligList]
      omega
    rw [fr_reset_eq sh content prefs key cache content hr hlatest]
    rw [List.length_take, (hperm _).length_eq, h5]
    rfl

/-- Witness for C5: with 5 eligible items the call returns 5. -/
theorem c5_witness :
    (filter_recommendations (fun l => l) catalog5 prefs0 "u"
      (cacheWith catalog5)).1.length = 5 :=
  (c5_exhaustion_reset (fun l => l) catalog5 prefs0 "u" (cacheWith catalog5)
    (fun l => List.Perm.refl l) rfl).2.2 (by rfl)

theorem usedSetOf_fr_no_reset (sh : List Content → List Content)
    (content : List Content) (prefs : UserPreferences) (key : String)
    (cache : ContentCache)
    (h : 10 ≤ eligCount content prefs (usedSetOf cache key)) :
    usedSetOf (filter_recommendations sh content prefs key cache).2 key
      = insertAllTitles (usedSetOf cache key)
          (filter_recommendations sh content prefs key cache).1 := by
  rw [fr_no_reset_eq sh content prefs key cache h]
  simp [usedSetOf, lookupMap_insertMap_self]

theorem mem_fr_not_used (sh : List Content → List Content)
    (content : List Content) (prefs : UserPreferences) (key : String)
    (cache : ContentCache) (c : Content)
    (hperm : ∀ l, (sh l).Perm l)
    (h : 10 ≤ eligCount content prefs (usedSetOf cache key))
    (hc : c ∈ (filter_recommendations sh content prefs key cache).1) :
    c.title ∉ usedSetOf cache key := by
  rw [fr_no_reset_eq sh content prefs key cache h] at hc
  have h1 := List.take_subset _ _ hc
  have h2 := ((hperm _).mem_iff).mp h1
  simp only [eligList] at h2
  have h3 := (List.mem_filter.mp h2).2
  simpa using h3

theorem runCalls_avoid_and_disjoint (content : List Content)
    (prefs : UserPreferences) (key : String) :
    ∀ (shs : List (List Content → List Content)) (cache : ContentCache),
      (∀ sh ∈ shs, ∀ l, (sh l).Perm l) →
      noResetRunB content prefs key shs cache = true →
      (∀ l ∈ (runCalls content prefs key shs cache).1, ∀ c ∈ l,
          c.title ∉ usedSetOf cache key) ∧
      List.Pairwise titleDisjoint (runCalls content prefs key shs cache).1 := by
  intro shs
  induction shs with
  | nil =>
    intro cache _ _
    constructor
    · intro l hl
      simp [runCalls] at hl
    · simp [runCalls]
  | cons sh rest ih =>
    intro cache hperm hnr
    simp only [noResetRunB, Bool.and_eq_true, decide_eq_true_eq] at hnr
    obtain ⟨h10, hnr2⟩ := hnr
    have hperm1 : ∀ l, (sh l).Perm l := hperm sh (List.mem_cons_self _ _)
    have hpermRest : ∀ s ∈ rest, ∀ l, (s l).Perm l :=
      fun s hs => hperm s (List.mem_cons_of_mem _ hs)
    obtain ⟨ihAvoid, ihPair⟩ :=
      ih (filter_recommendations sh content prefs key cache).2 hpermRest hnr2
    have hused := usedSetOf_fr_no_reset sh content prefs key cache h10
    constructor
    · intro l hl c hc
      simp only [runCalls] at hl
      rcases List.mem_cons.mp hl with h1 | h2
      · subst h1
        exact mem_fr_not_used sh content prefs key cache c hperm1 h10 hc
      · have hnotin := ihAvoid l h2 c hc
        rw [hused] at hnotin
        intro hmem
        exact hnotin (mem_insertAllTitles_of_mem _ hmem)
    · simp only [runCalls]
      refine List.Pairwise.cons ?_ ihPair
      intro l2 hl2 c1 hc1 c2 hc2
      have h1 : c1.title ∈
          usedSetOf (filter_recommendations sh content prefs key cache).2 key := by
        rw [hused]
        exact title_mem_insertAllTitles _ hc1
      have h2 := ihAvoid l2 hl2 c2 hc2
      intro heq
      rw [heq] at h1
      exact h2 h1

/-- C4: with a fixed catalog and preferences whose filtered pool has more
than 30 items, a sequence of recommendation calls in which the eligible
pool never drops below the floor of 10 returns pairwise title-disjoint
lists: no call repeats a title returned by an earlier call. -/
theorem c4_no_repeats_before_reset (content : List Content)
    (prefs : UserPreferences) (key : String)
    (shs : List (List Content → List Content)) (cache : ContentCache)
    (hperm : ∀ sh ∈ shs, ∀ l, (sh l).Perm l)
    (hpool : 30 < (content.filter (matchesPrefs prefs)).length)
    (hnr : noResetRunB content prefs key shs cache = true) :
    List.Pairwise titleDisjoint (runCalls content prefs key shs cache).1 :=
  (runCalls_avoid_and_disjoint content prefs key shs cache hperm hnr).2

/-- Witness for C4: one call on a 31-item catalog. -/
theorem c4_witness :
    List.Pairwise titleDisjoint
      (runCalls catalog31 prefs0 "u" [fun l => l] (cacheWith catalog31)).1 :=
  c4_no_repeats_before_reset catalog31 prefs0 "u" [fun l => l]
    (cacheWith catalog31)
    (by
      intro sh hsh l
      rw [List.mem_singleton] at hsh
      subst hsh
      exact List.Perm.refl l)
    (by decide) (by decide)

theorem tdiv_3600_gt_12_iff (e : Int) : 12 < e.tdiv 3600 ↔ 46800 ≤ e := by
  constructor
  · intro h
    rcases le_or_lt 0 e with he | he
    · have h1 := Int.tdiv_add_tmod e 3600
      have h2 := Int.tmod_nonneg 3600 he
      have h3 := Int.tmod_lt_of_pos e (b := 3600) (by norm_num)
      omega
    · exfalso
      have hd : e.tdiv 3600 = -((-e).tdiv 3600) := by
        rw [← Int.neg_tdiv, neg_neg]
      have hp : 0 ≤ (-e).tdiv 3600 := Int.tdiv_nonneg (by omega) (by norm_num)
      omega
  · intro h
    have h1 := Int.tdiv_add_tmod e 3600
    have h2 := Int.tmod_nonneg 3600 (by omega : (0:Int) ≤ e)
    have h3 := Int.tmod_lt_of_pos e (b := 3600) (by norm_num)
    omega

/-- C8 counterexample: with `last_updated = 0` and `now = 43201` the
elapsed time (12 hours and 1 second) exceeds 12 hours, yet `needs_update`
returns false, because `num_hours` truncates 43201 seconds to 12 whole
hours and `12 > 12` fails.  This refutes the claim that the staleness
check is true exactly when the elapsed time exceeds 12 hours. -/
theorem c8_counterexample :
    needs_update (cacheWith []) 43201 = false ∧
    12 * 3600 < (43201 : Int) - (cacheWith []).last_updated := by
  constructor
  · decide
  · decide

/-- C8 amended: `needs_update` returns true exactly when the elapsed time
since `last_updated` is at least 13 whole hours (46800 seconds), i.e. when
the truncated whole-hour count strictly exceeds 12; elapsed times in
(12 h, 13 h) are not considered stale. -/
theorem c8_needs_update_iff (cache : ContentCache) (now : Int) :
    needs_update cache now = true ↔ 46800 ≤ now - cache.last_updated := by
  unfold needs_update num_hours
  rw [decide_eq_true_iff]
  exact tdiv_3600_gt_12_iff (now - cache.last_updated)

theorem isOkE_map {ε α β : Type} (f : α → β) (e : Except ε α) :
    isOkE (e.map f) = isOkE e := by
  cases e <;> rfl

theorem scrapeGo_isOk (outcomes : List FetchOutcome) :
    ∀ (tracker : List Int) (acc : List Content),
      isOkE (scrapeGo tracker acc outcomes)
        = !(outcomes.any isTransportErr) := by
  induction outcomes with
  | nil => intro tracker acc; rfl
  | cons o rest ih =>
    intro tracker acc
    cases o with
    | transportErr => rfl
    | badStatus =>
      simp [scrapeGo, fetch_movies, isTransportErr, ih]
    | okResults items =>
      simp [scrapeGo, fetch_movies, isTransportErr, ih]

theorem scrapeGo_all_badStatus (outcomes : List FetchOutcome) :
    ∀ (tracker : List Int) (acc : List Content),
      (∀ o ∈ outcomes, o = FetchOutcome.badStatus) →
      scrapeGo tracker acc outcomes = .ok acc := by
  induction outcomes with
  | nil => intro tracker acc _; rfl
  | cons o rest ih =>
    intro tracker acc h
    have ho := h o (List.mem_cons_self _ _)
    subst ho
    show scrapeGo tracker (acc ++ []) rest = .ok acc
    rw [List.append_nil]
    exact ih tracker acc (fun o2 ho2 => h o2 (List.mem_cons_of_mem _ ho2))

/-- C6 counterexample: a transport failure of an individual upstream
listing call is not skipped: it aborts `scrape_content` with an error
even though an earlier listing call succeeded, so no result (neither
empty nor a subset) is returned.  This refutes the claim that individual
upstream listing-call failures are skipped and that aggregation never
returns an error to its caller. -/
theorem c6_counterexample :
    scrape_content (fun l => l)
      [FetchOutcome.okResults [], FetchOutcome.transportErr]
      = .error .fetchErr := by
  rfl

/-- C6 amended: a listing call whose response has a non-success HTTP
status contributes nothing and is skipped, and if every listing call has
a non-success status the aggregation returns the empty list; but a
listing-call transport or JSON-deserialization failure is not skipped:
`scrape_content` returns an error exactly when some listing call fails
that way. -/
theorem c6_scrape_failure_semantics (sh : List Content → List Content)
    (outcomes : List FetchOutcome)
    (hperm : ∀ l, (sh l).Perm l) :
    (isOkE (scrape_content sh outcomes) = false
      ↔ outcomes.any isTransportErr = true) ∧
    ((∀ o ∈ outcomes, o = FetchOutcome.badStatus) →
      scrape_content sh outcomes = .ok []) := by
  constructor
  · rw [scrape_content, isOkE_map, scrapeGo_isOk]
    cases outcomes.any isTransportErr <;> simp
  · intro h
    rw [scrape_content, scrapeGo_all_badStatus outcomes [] [] h]
    show Except.ok (sh []) = Except.ok []
    rw [(hperm []).eq_nil]

/-- Witness for C6: an all-bad-status run aggregates to the empty list. -/
theorem c6_witness :
    scrape_content (fun l => l) [FetchOutcome.badStatus] = .ok [] :=
  (c6_scrape_failure_semantics (fun l => l) [FetchOutcome.badStatus]
    (fun l => List.Perm.refl l)).2
    (by intro o ho; rw [List.mem_singleton] at ho; exact ho)

theorem saveAttempts_attempts_le (outcome : Nat → Bool) (max_retries : Nat) :
    ∀ (fuel retry_count : Nat),
      (saveAttempts outcome max_retries retry_count fuel).2.1 ≤ fuel := by
  intro fuel
  induction fuel with
  | zero => intro rc; simp [saveAttempts]
  | succ f ih =>
    intro rc
    simp only [saveAttempts]
    split
    · simp
    · simpa using Nat.succ_le_succ (ih (rc + 1))

/-- C7: the durable save attempts the upload at most 3 times; when all 3
attempts fail it sleeps 2^attempt seconds between consecutive attempts
(2 s then 4 s), returns a persist error, and the in-memory cache is not
rolled back: after a recommendation call whose save failed, the replaced
catalog is still cached with a fresh timestamp, and a subsequent
recommendation call succeeds from the in-memory cache. -/
theorem c7_save_retry_and_cache_preserved (so : Nat → Bool)
    (h0 : so 0 = false) (h1 : so 1 = false) (h2 : so 2 = false) :
    save_to_blob so = (.error .persistErr, 3, [2, 4]) ∧
    (∀ so2 : Nat → Bool, (save_to_blob so2).2.1 ≤ 3) ∧
    (∀ (shS shF : List Content → List Content)
       (outcomes : List FetchOutcome) (now : Int) (key : String)
       (cache : ContentCache) (prefs : UserPreferences)
       (content : List Content),
      needs_update cache now = true →
      scrape_content shS outcomes = .ok content →
      isOkE (get_recommendations shS shF outcomes so now key cache
          prefs).1 = false ∧
      lookupMap (get_recommendations shS shF outcomes so now key cache
          prefs).2.data "latest" = some content ∧
      (get_recommendations shS shF outcomes so now key cache
          prefs).2.last_updated = now ∧
      isOkE (get_recommendations shS shF outcomes so now key
          (get_recommendations shS shF outcomes so now key cache prefs).2
          prefs).1 = true) := by
  have hS : save_to_blob so = (.error .persistErr, 3, [2, 4]) := by
    simp [save_to_blob, saveAttempts, h0, h1, h2]
  refine ⟨hS, ?_, ?_⟩
  · intro so2
    simpa [save_to_blob] using saveAttempts_attempts_le so2 3 3 0
  · intro shS shF outcomes now key cache prefs content hnu hscr
    have hsv : (save_to_blob so).1 = Except.error SvcError.persistErr := by
      rw [hS]
    have hget : get_recommendations shS shF outcomes so now key cache prefs
        = (.error .persistErr,
            ⟨insertMap cache.data "latest" content, [], now⟩) := by
      simp [get_recommendations, hnu, hscr, hsv]
    have hnu2 : needs_update
        (⟨insertMap cache.data "latest" content, [], now⟩ : ContentCache)
        now = false := by
      simp [needs_update, num_hours, sub_self, Int.zero_tdiv]
    have hlk2 : lookupMap (insertMap cache.data "latest" content) "latest"
        = some content := lookupMap_insertMap_self _ _ _
    refine ⟨?_, ?_, ?_, ?_⟩
    · rw [hget]
      rfl
    · rw [hget]
      exact lookupMap_insertMap_self _ _ _
    · rw [hget]
    · rw [hget]
      simp [get_recommendations, hnu2, hlk2, isOkE]

/-- Witness for C7: all three attempts fail. -/
theorem c7_witness :
    save_to_blob (fun _ => false) = (.error .persistErr, 3, [2, 4]) :=
  (c7_save_retry_and_cache_preserved (fun _ => false) rfl rfl rfl).1

/-- C1 counterexample: with a stale cache that still holds a cached
catalog and an aggregation that fails, `get_recommendations` returns an
error instead of serving the cached (stale) content or an empty list:
the `?` operator on `scrape_content` propagates the failure to the
caller, refuting the no-error fallback claim. -/
theorem c1_counterexample :
    (get_recommendations (fun l => l) (fun l => l)
      [FetchOutcome.transportErr] (fun _ => true) 46800 "u"
      (cacheWith [mkC 0]) prefs0).1 = .error .fetchErr := by
  rfl

/-- C1 amended: the recommendation operation succeeds exactly when either
the cache is fresh and holds a catalog under `latest` (served without
aggregating or saving), or both the fresh aggregation and the durable
save succeed.  On the stale-or-empty-cache path an aggregation failure or
a durable-save failure propagates as an error to the caller; there is no
fallback to cached, stale or empty results. -/
theorem c1_error_propagation (shS shF : List Content → List Content)
    (outcomes : List FetchOutcome) (so : Nat → Bool) (now : Int)
    (key : String) (cache : ContentCache) (prefs : UserPreferences) :
    isOkE (get_recommendations shS shF outcomes so now key cache
        prefs).1 = true
      ↔ ((needs_update cache now = false ∧
            (lookupMap cache.data "latest").isSome = true)
         ∨ (isOkE (scrape_content shS outcomes) = true ∧
            isOkE (save_to_blob so).1 = true)) := by
  by_cases hnu : needs_update cache now = true
  · cases hscr : scrape_content shS outcomes with
    | error e => simp [get_recommendations, hnu, hscr, isOkE]
    | ok c =>
      cases hsv : (save_to_blob so).1 with
      | error e => simp [get_recommendations, hnu, hscr, hsv, isOkE]
      | ok u => simp [get_recommendations, hnu, hscr, hsv, isOkE]
  · cases hlk : lookupMap cache.data "latest" with
    | some c => simp [get_recommendations, hnu, hlk, isOkE]
    | none =>
      cases hscr : scrape_content shS outcomes with
      | error e => simp [get_recommendations, hnu, hlk, hscr, isOkE]
      | ok c =>
        cases hsv : (save_to_blob so).1 with
        | error e => simp [get_recommendations, hnu, hlk, hscr, hsv, isOkE]
        | ok u => simp [get_recommendations, hnu, hlk, hscr, hsv, isOkE]

theorem decStrs_enc (l : List String) : decStrs (l.map Json.str) = some l := by
  induction l with
  | nil => rfl
  | cons s rest ih => simp [decStrs, decStr, ih]

theorem decStrList_enc (l : List String) :
    decStrList (encStrList l) = some l := by
  simp [decStrList, encStrList, decStrs_enc]

theorem content_fromJson_toJson (c : Content) :
    Content.fromJson (Content.toJson c) = some c := by
  cases c with
  | mk t y r g d w =>
    cases y <;> cases r <;>
      simp [Content.toJson, Content.fromJson, encOptStr, encOptRat,
        decStr, decOptStr, decOptRat, decStrList_enc]

theorem decContents_enc (l : List Content) :
    decContents (l.map Content.toJson) = some l := by
  induction l with
  | nil => rfl
  | cons c rest ih => simp [decContents, content_fromJson_toJson, ih]

theorem decRotEntries_enc (l : List (String × List String)) :
    decRotEntries (l.map (fun p => (p.1, encStrList p.2))) = some l := by
  induction l with
  | nil => rfl
  | cons p rest ih =>
    cases p with
    | mk k v => simp [decRotEntries, decStrList_enc, ih]

theorem cacheData_fromJson_toJson (cd : CacheData) :
    CacheData.fromJson (CacheData.toJson cd) = some cd := by
  cases cd with
  | mk content ur ts =>
    simp [CacheData.toJson, CacheData.fromJson, decContents_enc,
      decRotEntries_enc, Rat.den_intCast, Rat.num_intCast]

/-- C9: encoding a snapshot as the save path does (JSON serialization
then compression, `save_to_blob_encode`) and decoding it as the load path
does (decompression then JSON deserialization, `process_blob_data`)
reproduces the same snapshot: the same catalog content, rotation map and
timestamp.  The external-library contracts are hypotheses: gzip
decompression inverts compression, and JSON parsing inverts rendering. -/
theorem c9_snapshot_roundtrip {γ β : Type} (render : Json → γ)
    (comp : γ → β) (decomp : β → Option γ) (parse : γ → Option Json)
    (hcomp : ∀ g, decomp (comp g) = some g)
    (hparse : ∀ j, parse (render j) = some j) (cd : CacheData) :
    process_blob_data decomp parse (save_to_blob_encode render comp cd)
      = some cd := by
  simp [process_blob_data, save_to_blob_encode, hcomp, hparse,
    cacheData_fromJson_toJson]

/-- Witness for C9, instantiating the library parameters with the
identity rendering and compression. -/
theorem c9_witness :
    process_blob_data (fun b => some b) (fun g => some g)
      (save_to_blob_encode (fun j => j) (fun g => g) cd0) = some cd0 :=
  c9_snapshot_roundtrip (fun j => j) (fun g => g) (fun b => some b)
    (fun g => some g) (fun g => rfl) (fun j => rfl) cd0

set_option maxRecDepth 4000 in
/-- C10 counterexample: an upstream item with a 201-character overview
yields a `Content` whose description has length 201: nothing truncates it
to at most 200 characters, refuting the bounded-length claim. -/
theorem c10_counterexample :
    fetch_movies [] (.okResults [rawItem1])
      = .ok ([contentOfRaw rawItem1], [1]) ∧
    200 < (contentOfRaw rawItem1).description.length := by
  constructor
  · rfl
  · decide

/-- C10 amended: the description of every aggregated `Content` value is
the upstream overview copied verbatim (empty when the overview is
absent); `fetch_movies` and `fetch_tv_shows` apply no truncation or
length bound. -/
theorem c10_description_verbatim (tracker : List Int)
    (items : List RawItem) :
    fetch_movies tracker (.okResults items)
      = .ok (processRawItems tracker items) ∧
    fetch_tv_shows tracker (.okResults items)
      = .ok (processRawItems tracker items) ∧
    ∀ c ∈ (processRawItems tracker items).1,
      ∃ it ∈ items, c.description = it.overview.getD "" := by
  refine ⟨rfl, rfl, ?_⟩
  induction items generalizing tracker with
  | nil =>
    intro c hc
    simp [processRawItems] at hc
  | cons it rest ih =>
    intro c hc
    by_cases hid : it.id.getD 0 ∈ tracker
    · have hred : processRawItems tracker (it :: rest)
          = processRawItems tracker rest := by
        simp [processRawItems, hid]
      rw [hred] at hc
      obtain ⟨it2, hm1, hm2⟩ := ih tracker c hc
      exact ⟨it2, List.mem_cons_of_mem _ hm1, hm2⟩
    · have hred : (processRawItems tracker (it :: rest)).1
          = contentOfRaw it
            :: (processRawItems (it.id.getD 0 :: tracker) rest).1 := by
        simp [processRawItems, hid]
      rw [hred] at hc
      rcases List.mem_cons.mp hc with h1 | h2
      · subst h1
        exact ⟨it, List.mem_cons_self _ _, rfl⟩
      · obtain ⟨it2, hm1, hm2⟩ := ih (it.id.getD 0 :: tracker) c h2
        exact ⟨it2, List.mem_cons_of_mem _ hm1, hm2⟩

/-- Witness for C10 amended, exercising the membership hypothesis at the
201-character item. -/
theorem c10_witness :
    ∃ it ∈ [rawItem1],
      (contentOfRaw rawItem1).description = it.overview.getD "" :=
  (c10_description_verbatim [] [rawItem1]).2.2 (contentOfRaw rawItem1)
    (by
      show contentOfRaw rawItem1 ∈ [contentOfRaw rawItem1]
      exact List.mem_singleton.mpr rfl)
